import Mathlib

/-!
# Verification of the virtual-showroom client logic

A shallow embedding, in Lean 4, of the client-side session state machine
(`AuthContext`), the route guard (`AuthGuard`), the tenant selector
(`TenantContext`), the collections query cache (`useCollections`), and the
pure transformer functions (`transformers/collections.ts`) of the
virtual-showroom repository, together with theorems settling the frozen
claims about them.

Asynchronous provider/network outcomes are passed to each operation as an
explicit argument (an `Except` for a call that can fail, an `Option` for a
fetch that can miss); each operation returns the successor state and the
list of user-visible toast notifications it emits.
-/

/-! ## Session State Holder (src/unnamed/part_009, `AuthContext`) -/

/-- Backend profile returned by `GET /auth/me` (uninterpreted payload). -/
abbrev User := String

/-- Identity-provider (Firebase) user (uninterpreted payload). -/
abbrev FirebaseUser := String

/-- Model of `AuthState` from `types/auth`, as initialised and mutated by `AuthProvider`. -/
structure AuthState where
  user : Option User
  firebaseUser : Option FirebaseUser
  isLoading : Bool
  isAuthenticated : Bool
deriving DecidableEq, Repr

/-- Transient user-visible notification (`react-hot-toast`). -/
inductive Toast where
  | success (msg : String)
  | error (msg : String)
deriving DecidableEq, Repr

/-- The initial `useState` value in `AuthProvider`. -/
def initialAuthState : AuthState :=
  { user := none, firebaseUser := none, isLoading := true, isAuthenticated := false }

/-- Model of `fetchUserProfile`: exchanges the identity token for a backend profile.
It catches every error and returns `null`; `response` is the outcome of the
`apiClient.get('/auth/me')` call. -/
def fetchUserProfile (response : Except String User) : Option User :=
  match response with
  | Except.ok u => some u
  | Except.error _ => none

/-- The `onAuthStateChanged` subscription handler in `AuthProvider`'s
`useEffect`.  `firebaseUser` is the identity delivered by the notification;
`profileResponse` is the outcome of the profile fetch performed when an
identity is present.  The handler replaces the whole state and emits no
toast. -/
def onAuthStateChange (firebaseUser : Option FirebaseUser)
    (profileResponse : Except String User) : AuthState × List Toast :=
  match firebaseUser with
  | some fu =>
    let user := fetchUserProfile profileResponse
    ({ user := user, firebaseUser := some fu, isLoading := false,
       isAuthenticated := user.isSome }, [])
  | none =>
    ({ user := none, firebaseUser := none, isLoading := false,
       isAuthenticated := false }, [])

/-- Model of `signIn(email, password)`: sets `isLoading := true`, delegates to the
identity provider, and toasts.  On provider failure the error is rethrown
without resetting `isLoading`; the session fields themselves are left to the
subscription handler. -/
def signIn (email password : String) (providerResult : Except String FirebaseUser)
    (s : AuthState) : AuthState × List Toast :=
  let s1 := { s with isLoading := true }
  match providerResult with
  | Except.ok _ => (s1, [Toast.success "Signed in successfully!"])
  | Except.error m => (s1, [Toast.error (if m = "" then "Failed to sign in" else m)])

/-- Model of `signUp(email, password, displayName)`: sets `isLoading := true`,
delegates to the identity provider; on failure resets `isLoading := false`
and rethrows. -/
def signUp (email password displayName : String)
    (providerResult : Except String FirebaseUser) (s : AuthState) : AuthState × List Toast :=
  match providerResult with
  | Except.ok _ =>
    ({ s with isLoading := true }, [Toast.success "Account created successfully!"])
  | Except.error m =>
    ({ s with isLoading := false },
     [Toast.error (if m = "" then "Failed to create account" else m)])

/-- Model of `signOut()`: delegates to the identity provider; mutates no session state
itself (the subscription handler resets the session). -/
def signOut (providerResult : Except String Unit) (s : AuthState) : AuthState × List Toast :=
  match providerResult with
  | Except.ok _ => (s, [Toast.success "Signed out successfully"])
  | Except.error m => (s, [Toast.error (if m = "" then "Failed to sign out" else m)])

/-- Model of `resetPassword(email)`: delegates to the identity provider; mutates no
session state. -/
def resetPassword (email : String) (providerResult : Except String Unit)
    (s : AuthState) : AuthState × List Toast :=
  match providerResult with
  | Except.ok _ => (s, [Toast.success "Password reset email sent!"])
  | Except.error m => (s, [Toast.error (if m = "" then "Failed to send reset email" else m)])

/-- Model of `refreshUser()`: when an identity user is present, refetches the backend
profile and overwrites only the `user` field (`setState(prev => ({ ...prev, user }))`). -/
def refreshUser (profileResponse : Except String User) (s : AuthState) : AuthState :=
  match s.firebaseUser with
  | some _ => { s with user := fetchUserProfile profileResponse }
  | none => s

/-- The spec's session invariant: `isAuthenticated` holds iff the
backend-resolved profile is present. -/
def authInvariant (s : AuthState) : Bool :=
  s.isAuthenticated == s.user.isSome

/-! ## Route Guard (`AuthGuard` in src/client/components, lookbook bundle) -/

/-- What one render of `AuthGuard` returns: the loading placeholder (the
supplied `fallback` when present, else the spinner), `null`, or the
protected `children`. -/
inductive GuardOutput where
  | placeholder (customFallback : Bool)
  | nothing
  | protectedContent
deriving DecidableEq, Repr

/-- The `AuthGuard` component body: `isLoading` short-circuits to
`fallback || <LoadingSpinner />`; unauthenticated renders `null`; otherwise
the children are rendered. -/
def authGuard (fallback : Option Unit) (isLoading isAuthenticated : Bool) : GuardOutput :=
  if isLoading then GuardOutput.placeholder fallback.isSome
  else if !isAuthenticated then GuardOutput.nothing
  else GuardOutput.protectedContent

/-! ## Tenant Selector (src/client/contexts/TenantContext.tsx) -/

/-- The `Tenant` interface. -/
structure Tenant where
  id : String
  name : String
  slug : String
  logo : Option String
  settings : List (String × String)
deriving DecidableEq, Repr

/-- Tenant context state plus the browser's `localStorage` (a flat
string-keyed store shared by every user of the browser instance). -/
structure TenantState where
  currentTenant : Option Tenant
  availableTenants : List Tenant
  isLoading : Bool
  storage : List (String × String)
deriving DecidableEq, Repr

/-- Model of `localStorage.setItem`. -/
def setItem (store : List (String × String)) (key value : String) : List (String × String) :=
  (key, value) :: store.filter (fun kv => !(kv.1 == key))

/-- Model of `localStorage.getItem` (`none` models `null`). -/
def getItem (store : List (String × String)) (key : String) : Option String :=
  (store.find? (fun kv => kv.1 == key)).map (fun kv => kv.2)

/-- Model of `switchTenant(tenantId)`: looks the id up in the available set; when
found, makes it current and persists the id under the fixed key
`'selectedTenantId'`; otherwise does nothing. -/
def switchTenant (tenantId : String) (s : TenantState) : TenantState :=
  match s.availableTenants.find? (fun t => t.id == tenantId) with
  | some t =>
    { s with currentTenant := some t,
             storage := setItem s.storage "selectedTenantId" tenantId }
  | none => s

/-- Model of `fetchAvailableTenants()`: `fetchedTenants` is the tenant set obtained
for the signed-in profile (mock data in the current implementation).  The
current tenant becomes the one stored under `'selectedTenantId'` when that id
is still available, else the first fetched tenant (`mockTenants[0]`,
`none` when the set is empty). -/
def fetchAvailableTenants (fetchedTenants : List Tenant) (s : TenantState) : TenantState :=
  let savedTenantId := getItem s.storage "selectedTenantId"
  let defaultTenant : Option Tenant :=
    match savedTenantId with
    | some sid =>
      match fetchedTenants.find? (fun t => t.id == sid) with
      | some t => some t
      | none => fetchedTenants.head?
    | none => fetchedTenants.head?
  { s with availableTenants := fetchedTenants, currentTenant := defaultTenant,
           isLoading := false }

/-! ## Theorems: session, guard, tenant claims -/

/-- C1: the claim says every Session State Holder operation preserves
`isAuthenticated ↔ backendUser ≠ null`.  The code violates it: from the
reachable authenticated state produced by the subscription handler,
`refreshUser` whose profile refetch fails overwrites `user` with `null`
but never re-derives `isAuthenticated`, leaving `isAuthenticated = true`
with `backendUser = null`. -/
theorem refreshUser_invariant_violation :
    authInvariant (onAuthStateChange (some "uid-1") (Except.ok "profile-1")).1 = true ∧
    (refreshUser (Except.error "network down")
      (onAuthStateChange (some "uid-1") (Except.ok "profile-1")).1).isAuthenticated = true ∧
    (refreshUser (Except.error "network down")
      (onAuthStateChange (some "uid-1") (Except.ok "profile-1")).1).user = none ∧
    authInvariant (refreshUser (Except.error "network down")
      (onAuthStateChange (some "uid-1") (Except.ok "profile-1")).1) = false := by
  decide

/-- C2: while `isLoading` is true the guard renders only the placeholder
(the supplied fallback or the spinner) and never the protected children;
the protected children are rendered exactly in the states with
`isLoading = false` and `isAuthenticated = true`. -/
theorem authGuard_loading_placeholder (fallback : Option Unit) (a : Bool) :
    authGuard fallback true a = GuardOutput.placeholder fallback.isSome ∧
    authGuard fallback false false = GuardOutput.nothing ∧
    authGuard fallback false true = GuardOutput.protectedContent ∧
    ∀ l : Bool, (authGuard fallback l a == GuardOutput.protectedContent) = (!l && a) := by
  refine ⟨rfl, rfl, rfl, ?_⟩
  intro l
  cases l <;> cases a <;> rfl

/-- C3 counterexample: the claim says `signIn` leaves the session state
unchanged when it returns.  In the code `signIn` first runs
`setState(prev => ({ ...prev, isLoading: true }))`, so from any settled
state (`isLoading = false`) the state it leaves behind differs. -/
theorem signIn_changes_state_counterexample :
    decide ((signIn "a@b.c" "pw" (Except.ok "uid-1")
      { user := some "profile-1", firebaseUser := some "uid-1",
        isLoading := false, isAuthenticated := true }).1 =
      { user := some "profile-1", firebaseUser := some "uid-1",
        isLoading := false, isAuthenticated := true }) = false := by
  decide

/-- C3 amended: `signIn` leaves `user`, `firebaseUser` and `isAuthenticated`
unchanged — those fields are changed only by the subscription handler — but
it does itself set `isLoading` to true (and leaves it true even on provider
failure). -/
theorem signIn_frame (email password : String) (r : Except String FirebaseUser)
    (s : AuthState) :
    (signIn email password r s).1.user = s.user ∧
    (signIn email password r s).1.firebaseUser = s.firebaseUser ∧
    (signIn email password r s).1.isAuthenticated = s.isAuthenticated ∧
    (signIn email password r s).1.isLoading = true := by
  cases r <;> exact ⟨rfl, rfl, rfl, rfl⟩

/-- C7: a notification with an identity present whose profile fetch fails
downgrades the session to unauthenticated — `user = null`,
`isAuthenticated = false`, `isLoading = false` — while `firebaseUser` keeps
the notified identity, and no toast is emitted. -/
theorem onAuthStateChange_profileFailure (fu : FirebaseUser) (msg : String) :
    onAuthStateChange (some fu) (Except.error msg) =
      ({ user := none, firebaseUser := some fu, isLoading := false,
         isAuthenticated := false }, []) := by
  rfl

/-- C5: `switchTenant` with an id absent from the available set changes
nothing: current tenant, available set and persisted storage all stay as
they were. -/
theorem switchTenant_noop (tenantId : String) (s : TenantState)
    (h : s.availableTenants.all (fun t => !(t.id == tenantId)) = true) :
    switchTenant tenantId s = s := by
  have hf : s.availableTenants.find? (fun t => t.id == tenantId) = none := by
    rw [List.find?_eq_none]
    intro t ht
    have := List.all_eq_true.mp h t ht
    simpa using this
  simp [switchTenant, hf]

/-- C5 witness: a concrete state with one available tenant and a foreign id. -/
theorem switchTenant_noop_witness :
    switchTenant "2"
      { currentTenant := none,
        availableTenants := [⟨"1", "Acme Swimwear", "acme-swimwear", none, []⟩],
        isLoading := false, storage := [] } =
      { currentTenant := none,
        availableTenants := [⟨"1", "Acme Swimwear", "acme-swimwear", none, []⟩],
        isLoading := false, storage := [] } :=
  switchTenant_noop "2" _ (by decide)

/-- C8 counterexample: the claim says the persisted tenant selection is
keyed by user.  In the code both `switchTenant` and `fetchAvailableTenants`
use the single fixed key `'selectedTenantId'`: after user A selects tenant
"1" and user B selects tenant "2" in the same browser, the store holds one
entry, A's value is gone, and a subsequent `fetchAvailableTenants` in A's
session picks up B's selection. -/
theorem tenantStorage_shared_key_counterexample :
    (switchTenant "2" (switchTenant "1"
      { currentTenant := none,
        availableTenants := [⟨"1", "A", "a", none, []⟩, ⟨"2", "B", "b", none, []⟩],
        isLoading := false, storage := [] })).storage = [("selectedTenantId", "2")] ∧
    (fetchAvailableTenants [⟨"1", "A", "a", none, []⟩, ⟨"2", "B", "b", none, []⟩]
      (switchTenant "2" (switchTenant "1"
        { currentTenant := none,
          availableTenants := [
            { id := "1", name := "A", slug := "a", logo := none, settings := [] },
            { id := "2", name := "B", slug := "b", logo := none, settings := [] }],
          isLoading := false, storage := [] }))).currentTenant =
      some ⟨"2", "B", "b", none, []⟩ := by
  decide

/-- C8 amended: the persisted tenant selection lives under the one fixed,
browser-scoped key `'selectedTenantId'` shared by all users: every
successful `switchTenant` writes that key (overwriting any previous user's
choice), and reading the key back yields the last id stored by anyone. -/
theorem switchTenant_fixed_storage_key (tenantId : String) (s : TenantState) (t : Tenant)
    (h : s.availableTenants.find? (fun x => x.id == tenantId) = some t) :
    (switchTenant tenantId s).storage = setItem s.storage "selectedTenantId" tenantId ∧
    getItem (switchTenant tenantId s).storage "selectedTenantId" = some tenantId := by
  refine ⟨by simp [switchTenant, h], ?_⟩
  simp [switchTenant, h, getItem, setItem]

/-- C8 amended, witness: user A stores "1", user B overwrites with "2". -/
theorem switchTenant_fixed_storage_key_witness :
    (switchTenant "1"
      { currentTenant := none,
        availableTenants := [⟨"1", "A", "a", none, []⟩, ⟨"2", "B", "b", none, []⟩],
        isLoading := false, storage := [] }).storage =
      setItem [] "selectedTenantId" "1" ∧
    getItem (switchTenant "1"
      { currentTenant := none,
        availableTenants := [⟨"1", "A", "a", none, []⟩, ⟨"2", "B", "b", none, []⟩],
        isLoading := false, storage := [] }).storage "selectedTenantId" = some "1" :=
  switchTenant_fixed_storage_key "1" _
    ⟨"1", "A", "a", none, []⟩ (by decide)

/-! ## Remote Data Cache for collections (src/client/hooks/useCollections.ts) -/

/-- A react-query cache key: a list of string segments (parameter objects
are modelled by their serialisation). -/
abbrev QueryKey := List String

namespace collectionsKeys

def all : QueryKey := ["collections"]

def lists : QueryKey := all ++ ["list"]

def list (params : String) : QueryKey := lists ++ [params]

def details : QueryKey := all ++ ["detail"]

def detail (id : String) : QueryKey := details ++ [id]

def detailBySlug (slug : String) : QueryKey := details ++ ["slug", slug]

end collectionsKeys

/-- The server's collection payload (the fields the hooks touch). -/
structure CollectionResponse where
  id : String
  name : String
  slug : String
  season : String
  year : Nat
  is_published : Bool
deriving DecidableEq, Repr

/-- Data held in one cache entry: a single item or a fetched list page. -/
inductive CacheData where
  | item (r : CollectionResponse)
  | page (rs : List CollectionResponse)
deriving DecidableEq, Repr

/-- One cache entry: its data and whether it has been invalidated (a stale
entry is refetched on the next read). -/
structure CacheEntry where
  data : CacheData
  stale : Bool
deriving DecidableEq, Repr

/-- The query cache: entries keyed by `QueryKey`. -/
structure Cache where
  entries : List (QueryKey × CacheEntry)
deriving DecidableEq, Repr

/-- react-query key matching: a filter key matches every key it is an
initial segment of. -/
def keyMatches : QueryKey → QueryKey → Bool
  | [], _ => true
  | _ :: _, [] => false
  | f :: fs, k :: ks => f == k && keyMatches fs ks

/-- Find the entry stored under a key. -/
def lookupEntry (c : Cache) (k : QueryKey) : Option CacheEntry :=
  (c.entries.find? (fun e => e.1 == k)).map (fun e => e.2)

/-- Model of `queryClient.setQueryData(k, d)`: seed the entry at `k` with fresh data. -/
def setQueryData (k : QueryKey) (d : CacheData) (c : Cache) : Cache :=
  ⟨(k, ⟨d, false⟩) :: c.entries.filter (fun e => !(e.1 == k))⟩

/-- Model of `queryClient.invalidateQueries({queryKey})`: mark every entry whose key
the filter key matches as stale, so a subsequent read refetches it. -/
def invalidateQueries (fk : QueryKey) (c : Cache) : Cache :=
  ⟨c.entries.map (fun e =>
    if keyMatches fk e.1 then (e.1, ⟨e.2.data, true⟩) else e)⟩

/-- Model of `queryClient.removeQueries({queryKey})`: drop every matched entry. -/
def removeQueries (fk : QueryKey) (c : Cache) : Cache :=
  ⟨c.entries.filter (fun e => !(keyMatches fk e.1))⟩

/-- A detail read (`useCollection(id)`): returns the cached data and whether
a network request is issued (a fresh cache entry is served without one; a
stale or missing entry triggers a fetch). -/
def readDetail (c : Cache) (id : String) : Option CacheData × Bool :=
  match lookupEntry c (collectionsKeys.detail id) with
  | some e => (some e.data, e.stale)
  | none => (none, true)

/-- Model of `useCreateCollection.onSuccess`: invalidate the list keys, then seed the
detail entry for the created id with the server response. -/
def createOnSuccess (data : CollectionResponse) (c : Cache) : Cache × List Toast :=
  (setQueryData (collectionsKeys.detail data.id) (CacheData.item data)
    (invalidateQueries collectionsKeys.lists c),
   [Toast.success "Collection created successfully!"])

/-- Model of `useUpdateCollection.onSuccess`: seed the detail entry for the updated
id with the server response, then invalidate the list keys. -/
def updateOnSuccess (id : String) (data : CollectionResponse) (c : Cache) : Cache × List Toast :=
  (invalidateQueries collectionsKeys.lists
    (setQueryData (collectionsKeys.detail id) (CacheData.item data) c),
   [Toast.success "Collection updated successfully!"])

/-- Model of `usePublishCollection.onSuccess`: seed the detail entry for the
published id with the server response, then invalidate the list keys. -/
def publishOnSuccess (id : String) (publish : Bool) (data : CollectionResponse)
    (c : Cache) : Cache × List Toast :=
  (invalidateQueries collectionsKeys.lists
    (setQueryData (collectionsKeys.detail id) (CacheData.item data) c),
   [Toast.success (if publish then "Collection published successfully!"
     else "Collection unpublished successfully!")])

/-- Model of `useDeleteCollection.onSuccess`: remove the detail entry, invalidate
the list keys. -/
def deleteOnSuccess (id : String) (c : Cache) : Cache × List Toast :=
  (invalidateQueries collectionsKeys.lists
    (removeQueries (collectionsKeys.detail id) c),
   [Toast.success "Collection deleted successfully!"])

/-- One entry of a FastAPI 422 payload's `errors` array. -/
structure FieldError where
  loc : List String
  msg : String
deriving DecidableEq, Repr

/-- The error payload seen by the mutation `onError` handlers. -/
structure ApiErrorResponse where
  status : Nat
  errors : Option (List FieldError)
  detail : Option String
deriving DecidableEq, Repr

/-- Model of `err.loc[err.loc.length - 1]` — JavaScript yields `undefined` (printed
as the string "undefined") on an empty array. -/
def lastLoc (loc : List String) : String :=
  loc.getLast?.getD "undefined"

/-- Model of `useCreateCollection.onError`: one error toast per entry of a 422
payload's structured error list (`field: message`), a generic validation
toast when the list is absent, the server detail (or a generic message)
otherwise.  It never touches the query cache. -/
def createOnError (e : ApiErrorResponse) (c : Cache) : Cache × List Toast :=
  if e.status = 422 then
    match e.errors with
    | some errs =>
      (c, errs.map (fun fe => Toast.error (lastLoc fe.loc ++ ": " ++ fe.msg)))
    | none => (c, [Toast.error "Validation failed. Please check your input."])
  else
    (c, [Toast.error (e.detail.getD "Failed to create collection")])

/-- Every list-cache entry is stale (so every subsequent list read refetches). -/
def listsAllStale (c : Cache) : Bool :=
  c.entries.all (fun e => !(keyMatches collectionsKeys.lists e.1) || e.2.stale)

/-! ## Theorems: cache claims -/

theorem listsKey_not_match_detailKey (id : String) :
    keyMatches collectionsKeys.lists (collectionsKeys.detail id) = false := by
  rfl

theorem mem_invalidate_lists_stale (c : Cache) :
    ∀ x ∈ (invalidateQueries collectionsKeys.lists c).entries,
      (!(keyMatches collectionsKeys.lists x.1) || x.2.stale) = true := by
  intro x hx
  simp only [invalidateQueries, List.mem_map] at hx
  obtain ⟨e, _, rfl⟩ := hx
  by_cases h : keyMatches collectionsKeys.lists e.1 <;> simp [h]

theorem listsAllStale_invalidate (c : Cache) :
    listsAllStale (invalidateQueries collectionsKeys.lists c) = true := by
  rw [listsAllStale, List.all_eq_true]
  exact mem_invalidate_lists_stale c

theorem lookupEntry_seed_then_invalidate (id : String) (d : CacheData) (c : Cache) :
    lookupEntry (invalidateQueries collectionsKeys.lists
      (setQueryData (collectionsKeys.detail id) d c)) (collectionsKeys.detail id) =
      some ⟨d, false⟩ := by
  simp only [lookupEntry, invalidateQueries, setQueryData, List.map_cons,
    listsKey_not_match_detailKey, Bool.false_eq_true, if_false, List.find?_cons,
    beq_self_eq_true]
  rfl

theorem lookupEntry_setQueryData (k : QueryKey) (d : CacheData) (c : Cache) :
    lookupEntry (setQueryData k d c) k = some ⟨d, false⟩ := by
  simp only [lookupEntry, setQueryData, List.find?_cons, beq_self_eq_true]
  rfl

/-- C4: after a successful create, update or publish mutation the list-cache
entries are all stale (subsequent list reads refetch) and the detail entry
for the mutated id holds exactly the server's authoritative response, fresh,
so a subsequent detail read returns that response without a network request
(second component `false`).  In particular, after
`publish(id, {publish:true})` the detail read returns the server response —
`is_published` and all. -/
theorem mutation_cache_seeding (c : Cache) (id : String) (pub : Bool)
    (data : CollectionResponse) :
    readDetail (publishOnSuccess id pub data c).1 id = (some (CacheData.item data), false) ∧
    listsAllStale (publishOnSuccess id pub data c).1 = true ∧
    readDetail (updateOnSuccess id data c).1 id = (some (CacheData.item data), false) ∧
    listsAllStale (updateOnSuccess id data c).1 = true ∧
    readDetail (createOnSuccess data c).1 data.id = (some (CacheData.item data), false) ∧
    listsAllStale (createOnSuccess data c).1 = true := by
  refine ⟨?_, ?_, ?_, ?_, ?_, ?_⟩
  · rw [publishOnSuccess, readDetail, lookupEntry_seed_then_invalidate]
  · exact listsAllStale_invalidate _
  · rw [updateOnSuccess, readDetail, lookupEntry_seed_then_invalidate]
  · exact listsAllStale_invalidate _
  · rw [createOnSuccess, readDetail, lookupEntry_setQueryData]
  · rw [createOnSuccess, listsAllStale, List.all_eq_true]
    intro x hx
    simp only [setQueryData, List.mem_cons, List.mem_filter] at hx
    rcases hx with rfl | ⟨hmem, _⟩
    · simp [listsKey_not_match_detailKey]
    · exact mem_invalidate_lists_stale c x hmem

/-- C6: a create-collection failure carrying a 422 payload with a structured
per-field error list produces exactly one error toast per offending field,
`field: message` each, and performs no cache operation at all: the cache it
returns is the one it was given (no list invalidation, no detail seeding). -/
theorem createOnError_validation (c : Cache) (errs : List FieldError)
    (det : Option String) :
    createOnError ⟨422, some errs, det⟩ c =
      (c, errs.map (fun fe => Toast.error (lastLoc fe.loc ++ ": " ++ fe.msg))) ∧
    (createOnError ⟨422, some errs, det⟩ c).2.length = errs.length := by
  constructor
  · rfl
  · simp [createOnError]

/-! ## Transformers (src/client/lib/transformers/collections.ts) -/

/-- The components JavaScript `Date` accessors expose for a validly parsed
date: `getDate()`, `getMonth()` (0-based) and `getFullYear()`. -/
structure JsDate where
  day : Nat
  monthIndex : Nat
  year : Int
deriving DecidableEq, Repr

/-- The inner `getOrdinalSuffix` helper of `formatOrderDate`. -/
def getOrdinalSuffix (day : Nat) : String :=
  if day > 3 ∧ day < 21 then "th"
  else match day % 10 with
    | 1 => "st"
    | 2 => "nd"
    | 3 => "rd"
    | _ => "th"

/-- Model of `date.toLocaleString('en-US', { month: 'long' })`. -/
def monthNameEnUS (monthIndex : Nat) : String :=
  ["January", "February", "March", "April", "May", "June", "July",
   "August", "September", "October", "November", "December"].getD monthIndex "undefined"

/-- Model of `formatOrderDate(dateString?)`.  `parse` models `new Date(string)`
(`none` is an invalid date, i.e. `isNaN(date.getTime())`); `currentYear`
models `new Date().getFullYear()`.  A missing or empty input yields `""`;
an unparsable input is returned unchanged; otherwise the ordinal-day/month
(and, outside the current year, the year) format is produced.  The function
is total: the `try`/`catch` in the source has no remaining throwing path. -/
def formatOrderDate (parse : String → Option JsDate) (currentYear : Int)
    (dateString : Option String) : String :=
  match dateString with
  | none => ""
  | some ds =>
    if ds = "" then ""
    else
      match parse ds with
      | none => ds
      | some d =>
        let ordinalDay := toString d.day ++ getOrdinalSuffix d.day
        let month := monthNameEnUS d.monthIndex
        if d.year = currentYear then ordinalDay ++ " " ++ month
        else ordinalDay ++ " " ++ month ++ " " ++ toString d.year

/-! ## Theorems: formatOrderDate claim -/

/-- C10: `formatOrderDate` is total and degrades to identity on bad input:
a missing or empty date string yields `""`, and any non-empty string the
date parser rejects comes back verbatim, with no exception and no half-built
format. -/
theorem formatOrderDate_degrades (parse : String → Option JsDate) (currentYear : Int)
    (s : String) :
    formatOrderDate parse currentYear none = "" ∧
    formatOrderDate parse currentYear (some "") = "" ∧
    (s ≠ "" → parse s = none → formatOrderDate parse currentYear (some s) = s) := by
  refine ⟨rfl, rfl, ?_⟩
  intro hne hp
  simp [formatOrderDate, hne, hp]

/-- C10 witness: a parser that rejects everything returns the input string
unchanged on a non-empty unparsable input. -/
theorem formatOrderDate_degrades_witness :
    formatOrderDate (fun _ => none) 2026 (some "99/99/bogus") = "99/99/bogus" :=
  (formatOrderDate_degrades (fun _ => none) 2026 "99/99/bogus").2.2 (by decide) rfl

/-- JavaScript's `\w` character class: `[A-Za-z0-9_]`. -/
def isJsWordChar (c : Char) : Bool :=
  decide (65 ≤ c.toNat ∧ c.toNat ≤ 90) || decide (97 ≤ c.toNat ∧ c.toNat ≤ 122) ||
  decide (48 ≤ c.toNat ∧ c.toNat ≤ 57) || decide (c.toNat = 95)

/-- JavaScript's `\s` character class (also the set `String.prototype.trim`
removes): tab through carriage return, space, NBSP, the Unicode space
separators, the line separators, NNBSP, MMSP, ideographic space and the
BOM. -/
def isJsSpace (c : Char) : Bool :=
  decide (9 ≤ c.toNat ∧ c.toNat ≤ 13) || decide (c.toNat = 32) ||
  decide (c.toNat = 160) || decide (c.toNat = 5760) ||
  decide (8192 ≤ c.toNat ∧ c.toNat ≤ 8202) || decide (c.toNat = 8232) ||
  decide (c.toNat = 8233) || decide (c.toNat = 8239) || decide (c.toNat = 8287) ||
  decide (c.toNat = 12288) || decide (c.toNat = 65279)

/-- The class `[\s_-]` collapsed to a hyphen by the slug generator. -/
def isRunChar (c : Char) : Bool :=
  isJsSpace c || c == '_' || c == '-'

/-- The class `[\w\s-]` kept by the `replace(/[^\w\s-]/g, '')` step. -/
def keepChar (c : Char) : Bool :=
  isJsWordChar c || isJsSpace c || c == '-'

/-- Model of `String.prototype.trim`: drop whitespace at both ends. -/
def jsTrim (l : List Char) : List Char :=
  ((l.dropWhile isJsSpace).reverse.dropWhile isJsSpace).reverse

/-- Model of `replace(/[\s_-]+/g, '-')` as a one-pass scanner: `inRun` records
whether the previous character belonged to a `[\s_-]` run (whose single
replacement hyphen has already been emitted). -/
def collapseRunsAux (inRun : Bool) : List Char → List Char
  | [] => []
  | c :: rest =>
    if isRunChar c then
      if inRun then collapseRunsAux true rest
      else '-' :: collapseRunsAux true rest
    else c :: collapseRunsAux false rest

/-- Model of `replace(/[\s_-]+/g, '-')`: every maximal run of whitespace,
underscores and hyphens becomes a single hyphen. -/
def collapseRuns (l : List Char) : List Char :=
  collapseRunsAux false l

/-- Model of `replace(/^-+|-+$/g, '')`: drop the leading and trailing hyphen runs. -/
def stripEdgeHyphens (l : List Char) : List Char :=
  ((l.dropWhile (fun c => c == '-')).reverse.dropWhile (fun c => c == '-')).reverse

/-- The character-list body of `generateSlugFromName`:
lowercase, trim, remove `[^\w\s-]`, collapse `[\s_-]+` to `-`, strip edge
hyphens — in the source's order. -/
def slugChars (l : List Char) : List Char :=
  stripEdgeHyphens (collapseRuns ((jsTrim (l.map Char.toLower)).filter keepChar))

/-- Model of `generateSlugFromName(name)`. -/
def generateSlugFromName (name : String) : String :=
  String.mk (slugChars name.data)

example : generateSlugFromName "  Summer Capsule 2024!  " = "summer-capsule-2024" := by decide
example : generateSlugFromName "--A__B  c--" = "a-b-c" := by decide
example : generateSlugFromName "___" = "" := by decide

/-- A character the slug pipeline can output: a lowercase-stable word
character other than the underscore, or the hyphen itself. -/
def isSlugChar (c : Char) : Bool :=
  (isJsWordChar c && !(c == '_') && (c.toLower == c)) || c == '-'

/-- No two adjacent hyphens. -/
def NoHyphenRun (l : List Char) : Prop :=
  l.Chain' (fun a b => ¬(a = '-' ∧ b = '-'))

/-! ## Theorems: slug generator claim -/

theorem char_toNat_inj {c d : Char} (h : c.toNat = d.toNat) : c = d := by
  have h2 : Char.ofNat c.toNat = Char.ofNat d.toNat := by rw [h]
  rwa [Char.ofNat_toNat, Char.ofNat_toNat] at h2

theorem char_toNat_ofNat {n : Nat} (h : n.isValidChar) : (Char.ofNat n).toNat = n := by
  simp [Char.ofNat, dif_pos h, Char.ofNatAux, Char.toNat, UInt32.toNat]

theorem toLower_toNat (c : Char) :
    (Char.toLower c).toNat =
      if 65 ≤ c.toNat ∧ c.toNat ≤ 90 then c.toNat + 32 else c.toNat := by
  by_cases h : 65 ≤ c.toNat ∧ c.toNat ≤ 90
  · rw [if_pos h]
    have he : Char.toLower c = Char.ofNat (c.toNat + 32) := by
      simp only [Char.toLower]
      rw [if_pos (show c.toNat ≥ 65 ∧ c.toNat ≤ 90 by omega)]
    rw [he, char_toNat_ofNat (Or.inl (by omega))]
  · rw [if_neg h]
    have he : Char.toLower c = c := by
      simp only [Char.toLower]
      rw [if_neg (show ¬(c.toNat ≥ 65 ∧ c.toNat ≤ 90) by omega)]
    rw [he]

theorem toLower_not_upper (c : Char) :
    ¬(65 ≤ (Char.toLower c).toNat ∧ (Char.toLower c).toNat ≤ 90) := by
  rw [toLower_toNat]
  split <;> omega

theorem toLower_fixed {c : Char} (h : ¬(65 ≤ c.toNat ∧ c.toNat ≤ 90)) :
    Char.toLower c = c :=
  char_toNat_inj (by rw [toLower_toNat, if_neg h])

theorem toLower_idem (c : Char) : (Char.toLower c).toLower = Char.toLower c :=
  toLower_fixed (toLower_not_upper c)

theorem isSlugChar_not_run {c : Char} (hs : isSlugChar c = true) (hne : c ≠ '-') :
    isRunChar c = false := by
  simp only [isSlugChar, Bool.or_eq_true, Bool.and_eq_true, beq_iff_eq] at hs
  rcases hs with ⟨⟨hw, hu⟩, _⟩ | h
  · have hu' : c ≠ '_' := by
      intro h; rw [h] at hu; simp at hu
    have hsp : isJsSpace c = false := by
      simp only [isJsWordChar, Bool.or_eq_true, decide_eq_true_eq] at hw
      simp only [isJsSpace, Bool.or_eq_false_iff, decide_eq_false_iff_not]
      omega
    simp only [isRunChar, hsp, Bool.false_or, Bool.or_eq_false_iff,
      beq_eq_false_iff_ne, ne_eq]
    exact ⟨hu', hne⟩
  · exact absurd h hne

theorem isSlugChar_keep {c : Char} (hs : isSlugChar c = true) : keepChar c = true := by
  simp only [isSlugChar, Bool.or_eq_true, Bool.and_eq_true] at hs
  rcases hs with ⟨⟨hw, _⟩, _⟩ | h
  · simp [keepChar, hw]
  · simp [keepChar, h]

theorem isSlugChar_not_space {c : Char} (hs : isSlugChar c = true) :
    isJsSpace c = false := by
  simp only [isSlugChar, Bool.or_eq_true, Bool.and_eq_true, beq_iff_eq] at hs
  rcases hs with ⟨⟨hw, _⟩, _⟩ | h
  · simp only [isJsWordChar, Bool.or_eq_true, decide_eq_true_eq] at hw
    simp only [isJsSpace, Bool.or_eq_false_iff, decide_eq_false_iff_not]
    omega
  · subst h; decide

theorem isSlugChar_toLower {c : Char} (hs : isSlugChar c = true) :
    Char.toLower c = c := by
  simp only [isSlugChar, Bool.or_eq_true, Bool.and_eq_true, beq_iff_eq] at hs
  rcases hs with ⟨_, hl⟩ | h
  · exact hl
  · subst h; decide

theorem slug_of_keep_stable {c : Char} (hk : keepChar c = true) (hst : Char.toLower c = c)
    (hr : isRunChar c = false) : isSlugChar c = true := by
  simp only [isRunChar, Bool.or_eq_false_iff, beq_eq_false_iff_ne, ne_eq] at hr
  obtain ⟨⟨hsp, hu⟩, hh⟩ := hr
  simp only [keepChar, Bool.or_eq_true, beq_iff_eq] at hk
  rcases hk with (hk | hk) | hk
  · simp only [isSlugChar, Bool.or_eq_true, Bool.and_eq_true, beq_iff_eq]
    exact Or.inl ⟨⟨hk, by simp [hu]⟩, hst⟩
  · rw [hk] at hsp; simp at hsp
  · exact absurd hk hh

theorem collapseRunsAux_cons_run {c : Char} (hc : isRunChar c = true)
    (rest : List Char) :
    collapseRunsAux false (c :: rest) = '-' :: collapseRunsAux true rest := by
  simp [collapseRunsAux, hc]

theorem collapseRunsAux_cons_run_inRun {c : Char} (hc : isRunChar c = true)
    (rest : List Char) :
    collapseRunsAux true (c :: rest) = collapseRunsAux true rest := by
  simp [collapseRunsAux, hc]

theorem collapseRunsAux_cons_nonrun {c : Char} (hc : isRunChar c = false) (b : Bool)
    (rest : List Char) :
    collapseRunsAux b (c :: rest) = c :: collapseRunsAux false rest := by
  simp [collapseRunsAux, hc]

theorem collapseRunsAux_mem {x : Char} (b : Bool) (l : List Char)
    (h : x ∈ collapseRunsAux b l) : x = '-' ∨ (x ∈ l ∧ isRunChar x = false) := by
  induction l generalizing b with
  | nil => simp [collapseRunsAux] at h
  | cons c rest ih =>
    by_cases hc : isRunChar c = true
    · cases b with
      | true =>
        rw [collapseRunsAux_cons_run_inRun hc] at h
        rcases ih true h with h1 | ⟨h2, h3⟩
        · exact Or.inl h1
        · exact Or.inr ⟨List.mem_cons_of_mem c h2, h3⟩
      | false =>
        rw [collapseRunsAux_cons_run hc, List.mem_cons] at h
        rcases h with rfl | h
        · exact Or.inl rfl
        · rcases ih true h with h1 | ⟨h2, h3⟩
          · exact Or.inl h1
          · exact Or.inr ⟨List.mem_cons_of_mem c h2, h3⟩
    · have hc' : isRunChar c = false := by simpa using hc
      rw [collapseRunsAux_cons_nonrun hc', List.mem_cons] at h
      rcases h with rfl | h
      · exact Or.inr ⟨List.mem_cons_self x rest, hc'⟩
      · rcases ih false h with h1 | ⟨h2, h3⟩
        · exact Or.inl h1
        · exact Or.inr ⟨List.mem_cons_of_mem c h2, h3⟩

theorem collapseRunsAux_head_true (l : List Char) (x : Char)
    (h : (collapseRunsAux true l).head? = some x) : isRunChar x = false := by
  induction l with
  | nil => simp [collapseRunsAux] at h
  | cons c rest ih =>
    by_cases hc : isRunChar c = true
    · rw [collapseRunsAux_cons_run_inRun hc] at h
      exact ih h
    · have hc' : isRunChar c = false := by simpa using hc
      rw [collapseRunsAux_cons_nonrun hc', List.head?_cons, Option.some.injEq] at h
      subst h
      exact hc'

theorem collapseRunsAux_chain (b : Bool) (l : List Char) :
    NoHyphenRun (collapseRunsAux b l) := by
  induction l generalizing b with
  | nil => simp [collapseRunsAux, NoHyphenRun]
  | cons c rest ih =>
    by_cases hc : isRunChar c = true
    · cases b with
      | true => rw [collapseRunsAux_cons_run_inRun hc]; exact ih true
      | false =>
        rw [collapseRunsAux_cons_run hc]
        rw [NoHyphenRun, List.chain'_cons']
        refine ⟨?_, ih true⟩
        intro y hy
        have hr : isRunChar y = false := collapseRunsAux_head_true rest y hy
        rintro ⟨-, rfl⟩
        exact Bool.noConfusion ((by decide : isRunChar '-' = true).symm.trans hr)
    · have hc' : isRunChar c = false := by simpa using hc
      rw [collapseRunsAux_cons_nonrun hc']
      rw [NoHyphenRun, List.chain'_cons']
      refine ⟨?_, ih false⟩
      intro y _
      rintro ⟨rfl, -⟩
      exact Bool.noConfusion ((by decide : isRunChar '-' = true).symm.trans hc')

theorem collapseRunsAux_true_eq_false {l : List Char}
    (h : ∀ x, l.head? = some x → isRunChar x = false) :
    collapseRunsAux true l = collapseRunsAux false l := by
  cases l with
  | nil => rfl
  | cons c rest =>
    have hc := h c rfl
    rw [collapseRunsAux_cons_nonrun hc, collapseRunsAux_cons_nonrun hc]

theorem collapseRunsAux_eq_self (l : List Char) :
    (∀ c ∈ l, isSlugChar c = true) → NoHyphenRun l → collapseRunsAux false l = l := by
  induction l with
  | nil => intro _ _; rfl
  | cons c rest ih =>
    intro hall hchain
    have hc : isSlugChar c = true := hall c (List.mem_cons_self c rest)
    have htail : NoHyphenRun rest := (List.chain'_cons'.mp hchain).2
    have ihrest : collapseRunsAux false rest = rest :=
      ih (fun d hd => hall d (List.mem_cons_of_mem c hd)) htail
    by_cases hhy : c = '-'
    · subst hhy
      have hhead : ∀ x, rest.head? = some x → isRunChar x = false := by
        intro x hx
        cases rest with
        | nil => simp at hx
        | cons d t =>
          simp only [List.head?_cons, Option.some.injEq] at hx
          subst hx
          refine isSlugChar_not_run (hall _ (by simp)) ?_
          have hr := (List.chain'_cons.mp hchain).1
          intro hdd
          exact hr ⟨rfl, hdd⟩
      rw [collapseRunsAux_cons_run (by decide), collapseRunsAux_true_eq_false hhead,
        ihrest]
    · have hcr : isRunChar c = false := isSlugChar_not_run hc hhy
      rw [collapseRunsAux_cons_nonrun hcr, ihrest]

theorem mem_jsTrim {c : Char} {l : List Char} (h : c ∈ jsTrim l) : c ∈ l := by
  unfold jsTrim at h
  rw [List.mem_reverse] at h
  have h1 := (List.dropWhile_sublist isJsSpace).subset h
  rw [List.mem_reverse] at h1
  exact (List.dropWhile_sublist isJsSpace).subset h1

theorem mem_stripEdgeHyphens {c : Char} {l : List Char} (h : c ∈ stripEdgeHyphens l) :
    c ∈ l := by
  unfold stripEdgeHyphens at h
  rw [List.mem_reverse] at h
  have h1 := (List.dropWhile_sublist (fun c => c == '-')).subset h
  rw [List.mem_reverse] at h1
  exact (List.dropWhile_sublist (fun c => c == '-')).subset h1

theorem dropWhile_eq_self_of_all {p : Char → Bool} {l : List Char}
    (h : ∀ c ∈ l, p c = false) : l.dropWhile p = l := by
  cases l with
  | nil => rfl
  | cons a t =>
    rw [List.dropWhile_cons_of_neg]
    simp [h a (List.mem_cons_self a t)]

theorem noHyphenRun_reverse {l : List Char} (h : NoHyphenRun l) :
    NoHyphenRun l.reverse := by
  rw [NoHyphenRun, List.chain'_reverse]
  exact h.imp (fun a b hab => fun hba => hab ⟨hba.2, hba.1⟩)

theorem noHyphenRun_stripEdgeHyphens {l : List Char} (h : NoHyphenRun l) :
    NoHyphenRun (stripEdgeHyphens l) := by
  unfold stripEdgeHyphens
  exact noHyphenRun_reverse
    (List.Chain'.suffix (noHyphenRun_reverse
      (List.Chain'.suffix h (List.dropWhile_suffix _))) (List.dropWhile_suffix _))

theorem suffix_getLast? {l2 l1 : List Char} (h : l2 <:+ l1) (hne : l2 ≠ []) :
    l2.getLast? = l1.getLast? := by
  obtain ⟨t, rfl⟩ := h
  rw [List.getLast?_append]
  have hs : l2.getLast?.isSome := List.getLast?_isSome.mpr hne
  cases hx : l2.getLast? with
  | none => rw [hx] at hs; simp at hs
  | some x => simp

theorem stripEdgeHyphens_getLast? (l : List Char) (x : Char)
    (hx : (stripEdgeHyphens l).getLast? = some x) : (x == '-') = false := by
  unfold stripEdgeHyphens at hx
  rw [List.getLast?_reverse] at hx
  have h2 := List.head?_dropWhile_not (fun c => c == '-')
    ((l.dropWhile (fun c => c == '-')).reverse)
  rw [hx] at h2
  exact h2

theorem stripEdgeHyphens_head? (l : List Char) (x : Char)
    (hx : (stripEdgeHyphens l).head? = some x) : (x == '-') = false := by
  unfold stripEdgeHyphens at hx
  rw [List.head?_reverse] at hx
  have hne : (l.dropWhile (fun c => c == '-')).reverse.dropWhile (fun c => c == '-') ≠ [] := by
    intro h0
    rw [h0] at hx
    simp at hx
  rw [suffix_getLast? (List.dropWhile_suffix _) hne, List.getLast?_reverse] at hx
  have h2 := List.head?_dropWhile_not (fun c => c == '-') l
  rw [hx] at h2
  exact h2

theorem slugChars_spec (l : List Char) :
    (∀ c ∈ slugChars l, isSlugChar c = true) ∧ NoHyphenRun (slugChars l) ∧
    (∀ x, (slugChars l).head? = some x → (x == '-') = false) ∧
    (∀ x, (slugChars l).getLast? = some x → (x == '-') = false) := by
  refine ⟨?_, ?_, stripEdgeHyphens_head? _, stripEdgeHyphens_getLast? _⟩
  · intro c hc
    have hc1 := mem_stripEdgeHyphens hc
    rcases collapseRunsAux_mem false _ hc1 with rfl | ⟨h2, h3⟩
    · decide
    · rw [List.mem_filter] at h2
      obtain ⟨h4, hkeep⟩ := h2
      have h5 := mem_jsTrim h4
      rw [List.mem_map] at h5
      obtain ⟨c0, -, rfl⟩ := h5
      exact slug_of_keep_stable hkeep (toLower_idem c0) h3
  · exact noHyphenRun_stripEdgeHyphens (collapseRunsAux_chain false _)

theorem slugChars_eq_self {l : List Char} (hall : ∀ c ∈ l, isSlugChar c = true)
    (hchain : NoHyphenRun l)
    (hh : ∀ x, l.head? = some x → (x == '-') = false)
    (hl : ∀ x, l.getLast? = some x → (x == '-') = false) :
    slugChars l = l := by
  unfold slugChars
  have hmap : l.map Char.toLower = l := by
    have he : l.map Char.toLower = l.map id :=
      List.map_congr_left (fun c hc => isSlugChar_toLower (hall c hc))
    rw [he, List.map_id]
  have htrim : jsTrim l = l := by
    unfold jsTrim
    rw [dropWhile_eq_self_of_all (fun c hc => isSlugChar_not_space (hall c hc))]
    rw [dropWhile_eq_self_of_all
      (fun c hc => isSlugChar_not_space (hall c (List.mem_reverse.mp hc)))]
    exact List.reverse_reverse l
  have hfil : l.filter keepChar = l :=
    List.filter_eq_self.mpr (fun c hc => isSlugChar_keep (hall c hc))
  have hcol : collapseRuns l = l := collapseRunsAux_eq_self l hall hchain
  have hstrip : stripEdgeHyphens l = l := by
    unfold stripEdgeHyphens
    have h1 : l.dropWhile (fun c => c == '-') = l := by
      cases l with
      | nil => rfl
      | cons a t =>
        rw [List.dropWhile_cons_of_neg]
        simp [hh a rfl]
    rw [h1]
    have h2 : l.reverse.dropWhile (fun c => c == '-') = l.reverse := by
      cases hr : l.reverse with
      | nil => rfl
      | cons a t =>
        rw [List.dropWhile_cons_of_neg]
        have hgl : l.getLast? = some a := by
          rw [← List.head?_reverse, hr, List.head?_cons]
        simp [hl a hgl]
    rw [h2, List.reverse_reverse]
  rw [hmap, htrim, hfil, hcol, hstrip]

/-- C9: `generateSlugFromName` is idempotent — applying it to its own output
returns that output unchanged — and its output has no leading and no
trailing hyphen. -/
theorem generateSlugFromName_idempotent (name : String) :
    generateSlugFromName (generateSlugFromName name) = generateSlugFromName name ∧
    decide ((generateSlugFromName name).data.head? = some '-') = false ∧
    decide ((generateSlugFromName name).data.getLast? = some '-') = false := by
  obtain ⟨hall, hchain, hh, hl⟩ := slugChars_spec name.data
  refine ⟨?_, ?_, ?_⟩
  · show String.mk (slugChars (slugChars name.data)) = String.mk (slugChars name.data)
    exact congrArg String.mk (slugChars_eq_self hall hchain hh hl)
  · apply decide_eq_false
    intro heq
    have h2 := hh '-' heq
    simp at h2
  · apply decide_eq_false
    intro heq
    have h2 := hl '-' heq
    simp at h2
